import Mathlib

/-!
Shallow embedding of the vocabulary-structuring core of the
iso9000-data-pipeline repository.

Two structuring variants exist in the repository and both are embedded here:

* `Iso9000Parser`  — the class `Iso9000Parser` of `src/iso9000-parser.mts`
  (multi-line term names via `parseTermNameMultiLine`, remark stored
  verbatim, no marker stripping on notes/examples).
* `Iso9000ParserB` — the second `Iso9000Parser` class found in the unnamed
  source file (single-line term names, `parseMultipleTermsWithParentheses`,
  `cleanNoteContent` / `cleanExampleContent` / `cleanRemarkContent`).

JavaScript strings are modelled as Lean `String`, read through `.data`
(`List Char`).  The structurer's mutable `currentIndex` becomes an explicit
cursor argument threaded through every function.  Each `while` loop becomes
a structurally recursive function on an explicit fuel argument; every
public entry point supplies the fuel `lines.length + 1`, which is shown
sufficient (fuel-independence) in the termination theorem below.
`new Date().toISOString()` is modelled as an explicit `extractedAt`
parameter, the only impure input of `parseHtml` after block extraction.
-/

/-- Whitespace test used to model `String.prototype.trim` and `\s`.
JavaScript also trims a few exotic Unicode spaces; none of the behaviour
verified here depends on those. -/
def isWSChar (c : Char) : Bool :=
  c = ' ' || c = '\t' || c = '\n' || c = '\r'

/-- Drop a maximal run of trailing whitespace characters. -/
def dropTrailingWS : List Char → List Char
  | [] => []
  | c :: cs =>
    if dropTrailingWS cs = [] && isWSChar c then [] else c :: dropTrailingWS cs

/-- Model of `s.trim()` on the character list. -/
def trimChars (cs : List Char) : List Char :=
  dropTrailingWS (cs.dropWhile isWSChar)

/-- Model of `s.trim()`. -/
def trimS (s : String) : String :=
  ⟨trimChars s.data⟩

/-- List-level prefix test (model of `String.prototype.startsWith`). -/
def hasPrefixChars : List Char → List Char → Bool
  | [], _ => true
  | _ :: _, [] => false
  | p :: ps, c :: cs => p = c && hasPrefixChars ps cs

/-- Model of `s.startsWith(p)`. -/
def hasPrefixStr (p s : String) : Bool :=
  hasPrefixChars p.data s.data

/-- Does `pat` occur as a contiguous substring?  Models an unanchored
regular-expression test of a literal alternative. -/
def hasSubstrChars (pat : List Char) : List Char → Bool
  | [] => hasPrefixChars pat []
  | c :: cs => hasPrefixChars pat (c :: cs) || hasSubstrChars pat cs

/-- Model of an unanchored literal-substring regex test on `s`. -/
def hasSubstr (s pat : String) : Bool :=
  hasSubstrChars pat.data s.data

/-- Split a character list at the first character satisfying `p`:
returns the characters before it and the characters after it. -/
def breakAtFirst (p : Char → Bool) : List Char → Option (List Char × List Char)
  | [] => none
  | c :: cs =>
    if p c then some ([], cs)
    else
      match breakAtFirst p cs with
      | some (a, b) => some (c :: a, b)
      | none => none

/-- Model of `s.split(sep)` for a one-character separator. -/
def splitOnChar (c : Char) : List Char → List (List Char)
  | [] => [[]]
  | x :: xs =>
    match splitOnChar c xs with
    | [] => [[x]]
    | h :: t => if x = c then [] :: h :: t else (x :: h) :: t

/-- Model of `Array.prototype.join(sep)`. -/
def joinSep (sep : String) : List String → String
  | [] => ""
  | [x] => x
  | x :: y :: xs => x ++ sep ++ joinSep sep (y :: xs)

/-- Model of `s.replace(/\s+/g, " ")`: every maximal whitespace run
becomes a single space.  The flag records whether we are inside a run. -/
def collapseWSChars (dropping : Bool) : List Char → List Char
  | [] => []
  | c :: cs =>
    if isWSChar c then
      if dropping then collapseWSChars true cs
      else ' ' :: collapseWSChars true cs
    else c :: collapseWSChars false cs

/-- Output record `TermDefinition` of `iso9000-parser.mts`.  Optional
fields are `Option`/possibly-empty lists; the parser only ever stores
`some`/non-empty values for them (the `if (x) obj.f = x` assembly). -/
structure TermDefinition where
  id : String
  term : String
  englishTerm : Option String
  definition : String
  notes : List String
  examples : List String
  remark : Option String
deriving DecidableEq

/-- Output record `CategoryData` of `iso9000-parser.mts`. -/
structure CategoryData where
  id : String
  name : String
  terms : List TermDefinition
deriving DecidableEq

/-- The `metadata` object of `Iso9000Document`. -/
structure DocMetadata where
  title : String
  extractedAt : String
  totalTerms : Nat
  totalCategories : Nat
deriving DecidableEq

/-- Output record `Iso9000Document` of `iso9000-parser.mts`. -/
structure Iso9000Document where
  metadata : DocMetadata
  categories : List CategoryData
deriving DecidableEq

/-- The three values of the `currentState` variable of `parseTermContent`
(`"definition" | "note" | "example"`). -/
inductive CState where
  | defn
  | note
  | ex
deriving DecidableEq

/-- State of the content-classification loop when it stops: the current
classifier state, the accumulator, the three destinations, the remark
slot and the cursor.  The final flush is applied by the caller. -/
structure CPhase where
  state : CState
  content : String
  definition : String
  notes : List String
  examples : List String
  remark : Option String
  cursor : Nat
deriving DecidableEq

/-- Result of `parseTermContent`: destinations, remark and final cursor. -/
structure ContentResult where
  definition : String
  notes : List String
  examples : List String
  remark : Option String
  cursor : Nat
deriving DecidableEq

namespace Iso9000Parser

/-- The category-id test `/^3\.(\d+)$/`. -/
def isCategoryId (s : String) : Bool :=
  match s.data with
  | '3' :: '.' :: rest => !rest.isEmpty && rest.all Char.isDigit
  | _ => false

/-- The term-id test `/^3\.(\d+)\.(\d+)$/`. -/
def isTermId (s : String) : Bool :=
  match s.data with
  | '3' :: '.' :: rest =>
    match breakAtFirst (fun c => c = '.') rest with
    | some (d1, d2) =>
      !d1.isEmpty && d1.all Char.isDigit && !d2.isEmpty && d2.all Char.isDigit
    | none => false
  | _ => false

/-- The literal alternatives of the three `definitionPatterns` regexes of
`isDefinitionLine` (Japanese particles, verb endings, references). -/
def definitionPatterns : List String :=
  ["を", "に", "が", "の", "で", "は", "と", "より", "から", "まで",
   "について", "に関して", "において", "によって",
   "である", "です", "だ", "する", "される", "できる", "もつ", "ある",
   "いる", "なる", "つ", "。",
   "組織(", "システム(", "プロセス(", "活動(", "状況(", "情報("]

/-- `isDefinitionLine`: does the line match any of the definition-marker
patterns (all of them unanchored literal alternations)? -/
def isDefinitionLine (line : String) : Bool :=
  definitionPatterns.any (fun p => hasSubstr line p)

/-- `isRemarkLine`: fully enclosed in full-width parentheses or brackets. -/
def isRemarkLine (line : String) : Bool :=
  (hasPrefixStr "（" line && (match line.data.getLast? with
    | some c => c = '）'
    | none => false)) ||
  (hasPrefixStr "［" line && (match line.data.getLast? with
    | some c => c = '］'
    | none => false))

/-- `parseTermName`: the match `/^([^（(]+)\s*[（(]([^）)]+)[）)]/`.
Group 1 is the non-empty run before the first opening parenthesis
(full-width or ASCII), group 2 the non-empty run from there to the first
closing parenthesis.  On a match both groups are trimmed; otherwise the
line is returned verbatim with no English term. -/
def parseTermName (termNameLine : String) : String × Option String :=
  match breakAtFirst (fun c => c = '（' || c = '(') termNameLine.data with
  | some (before, after) =>
    if before.isEmpty then (termNameLine, none)
    else
      match breakAtFirst (fun c => c = '）' || c = ')') after with
      | some (inner, _) =>
        if inner.isEmpty then (termNameLine, none)
        else (trimS ⟨before⟩, some (trimS ⟨inner⟩))
      | none => (termNameLine, none)
  | none => (termNameLine, none)

/-- The `// Save previous content` block of `parseTermContent`, shared by
all four flush sites: store the accumulator (if non-empty) into the
destination selected by the current state. -/
def saveCurrent (st : CState) (acc defn : String) (notes examples : List String) :
    String × List String × List String :=
  match st with
  | .defn => if acc ≠ "" then (trimS acc, notes, examples) else (defn, notes, examples)
  | .note => if acc ≠ "" then (defn, notes ++ [trimS acc], examples) else (defn, notes, examples)
  | .ex => if acc ≠ "" then (defn, notes, examples ++ [trimS acc]) else (defn, notes, examples)

/-- The `while` loop of `parseTermContent`.  One fuel unit per iteration;
the caller's fuel `lines.length + 1` never runs out because the cursor
advances on every iteration. -/
def contentLoop (lines : List String) :
    Nat → Nat → CState → String → String → List String → List String →
    Option String → CPhase
  | 0, i, st, acc, d, ns, es, rm => ⟨st, acc, d, ns, es, rm, i⟩
  | f + 1, i, st, acc, d, ns, es, rm =>
    if i < lines.length then
      if trimS (lines.getD i "") = "" then
        contentLoop lines f (i + 1) st acc d ns es rm
      else if isTermId (trimS (lines.getD i "")) || isCategoryId (trimS (lines.getD i "")) then
        ⟨st, acc, d, ns, es, rm, i⟩
      else if isRemarkLine (trimS (lines.getD i "")) then
        contentLoop lines f (i + 1) st ""
          (saveCurrent st acc d ns es).1
          (saveCurrent st acc d ns es).2.1
          (saveCurrent st acc d ns es).2.2
          (some (trimS (lines.getD i "")))
      else if hasPrefixStr "注記" (trimS (lines.getD i "")) then
        contentLoop lines f (i + 1) CState.note (trimS (lines.getD i ""))
          (saveCurrent st acc d ns es).1
          (saveCurrent st acc d ns es).2.1
          (saveCurrent st acc d ns es).2.2
          rm
      else if hasPrefixStr "例" (trimS (lines.getD i "")) then
        contentLoop lines f (i + 1) CState.ex (trimS (lines.getD i ""))
          (saveCurrent st acc d ns es).1
          (saveCurrent st acc d ns es).2.1
          (saveCurrent st acc d ns es).2.2
          rm
      else
        contentLoop lines f (i + 1) st (acc ++ trimS (lines.getD i "")) d ns es rm
    else ⟨st, acc, d, ns, es, rm, i⟩

/-- `parseTermContent`: run the classification loop from the cursor with
the initial state (`definition`, empty accumulator), then apply the final
`// Save final content` flush. -/
def parseTermContent (lines : List String) (i : Nat) : ContentResult :=
  let p := contentLoop lines (lines.length + 1) i CState.defn "" "" [] [] none
  ⟨(saveCurrent p.state p.content p.definition p.notes p.examples).1,
   (saveCurrent p.state p.content p.definition p.notes p.examples).2.1,
   (saveCurrent p.state p.content p.definition p.notes p.examples).2.2,
   p.remark, p.cursor⟩

/-- The name-accumulation `while` loop of `parseTermNameMultiLine`:
gather non-blank blocks until a category/term id or a definition-looking
line, concatenating with no separator. -/
def nameLoop (lines : List String) : Nat → Nat → String → String × Nat
  | 0, i, acc => (acc, i)
  | f + 1, i, acc =>
    if i < lines.length then
      if trimS (lines.getD i "") = "" then
        nameLoop lines f (i + 1) acc
      else if isTermId (trimS (lines.getD i "")) || isCategoryId (trimS (lines.getD i "")) then
        (acc, i)
      else if isDefinitionLine (trimS (lines.getD i "")) then
        (acc, i)
      else
        nameLoop lines f (i + 1) (acc ++ trimS (lines.getD i ""))
    else (acc, i)

/-- `parseTermNameMultiLine`: accumulate the name blocks, then split the
concatenated name with `parseTermName`. -/
def parseTermNameMultiLine (lines : List String) (i : Nat) :
    (String × Option String) × Nat :=
  let r := nameLoop lines (lines.length + 1) i ""
  (parseTermName r.1, r.2)

/-- Model of `if (x) obj.f = x` for an optional string field: an empty
string is falsy and leaves the field absent. -/
def presentStr : Option String → Option String
  | some s => if s = "" then none else some s
  | none => none

/-- `parseSingleTerm`, cursor on the term-id block: consume the id, the
multi-line name, the content phase; a term whose definition came out empty
is dropped (`null`) with the cursor still advanced past its blocks. -/
def parseSingleTerm (lines : List String) (i : Nat) :
    Option TermDefinition × Nat :=
  if i < lines.length then
    if trimS (lines.getD i "") = "" then (none, i)
    else
      let n := parseTermNameMultiLine lines (i + 1)
      let c := parseTermContent lines n.2
      if c.definition = "" then (none, c.cursor)
      else
        (some
          { id := trimS (lines.getD i "")
            term := n.1.1
            englishTerm := presentStr n.1.2
            definition := c.definition
            notes := c.notes
            examples := c.examples
            remark := presentStr c.remark }, c.cursor)
  else (none, i)

/-- The `while` loop of `parseTermsInCategory`: skip blanks and stray
blocks, stop at the next category id, parse a term at each term id. -/
def termsLoop (lines : List String) : Nat → Nat → List TermDefinition × Nat
  | 0, i => ([], i)
  | f + 1, i =>
    if i < lines.length then
      if trimS (lines.getD i "") = "" then termsLoop lines f (i + 1)
      else if isCategoryId (trimS (lines.getD i "")) then ([], i)
      else if isTermId (trimS (lines.getD i "")) then
        ((match (parseSingleTerm lines i).1 with
          | some t => t :: (termsLoop lines f (parseSingleTerm lines i).2).1
          | none => (termsLoop lines f (parseSingleTerm lines i).2).1),
         (termsLoop lines f (parseSingleTerm lines i).2).2)
      else termsLoop lines f (i + 1)
    else ([], i)

/-- `parseTermsInCategory`. -/
def parseTermsInCategory (lines : List String) (i : Nat) :
    List TermDefinition × Nat :=
  termsLoop lines (lines.length + 1) i

/-- The `while` loop of `findNextCategory`: scan for a category id; the
next non-blank block is taken as the category title, and both blocks are
consumed.  An id with a blank/missing title is skipped (the unconditional
`currentIndex++` at the loop's end). -/
def findNextCategoryLoop (lines : List String) :
    Nat → Nat → Option (String × String × Nat)
  | 0, _ => none
  | f + 1, i =>
    if i < lines.length then
      if trimS (lines.getD i "") = "" then findNextCategoryLoop lines f (i + 1)
      else if isCategoryId (trimS (lines.getD i "")) then
        if i + 1 < lines.length then
          if trimS (lines.getD (i + 1) "") ≠ "" then
            some (trimS (lines.getD i ""), trimS (lines.getD (i + 1) ""), i + 2)
          else findNextCategoryLoop lines f (i + 2)
        else findNextCategoryLoop lines f (i + 2)
      else findNextCategoryLoop lines f (i + 1)
    else none

/-- `findNextCategory`. -/
def findNextCategory (lines : List String) (i : Nat) :
    Option (String × String × Nat) :=
  findNextCategoryLoop lines (lines.length + 1) i

/-- The outer `while` loop of `parseHtml`: returns the category list and
the incrementally accumulated `totalTerms` counter.  A category whose term
list came out empty is discarded. -/
def parseHtmlLoop (lines : List String) : Nat → Nat → List CategoryData × Nat
  | 0, _ => ([], 0)
  | f + 1, i =>
    if i < lines.length then
      match findNextCategory lines i with
      | none => ([], 0)
      | some cb =>
        if 0 < (parseTermsInCategory lines cb.2.2).1.length then
          (⟨cb.1, cb.2.1, (parseTermsInCategory lines cb.2.2).1⟩ ::
              (parseHtmlLoop lines f (parseTermsInCategory lines cb.2.2).2).1,
           (parseTermsInCategory lines cb.2.2).1.length +
              (parseHtmlLoop lines f (parseTermsInCategory lines cb.2.2).2).2)
        else parseHtmlLoop lines f (parseTermsInCategory lines cb.2.2).2
    else ([], 0)

/-- `parseHtml` after block extraction: structure the block sequence into
the final document.  `title` is the already-extracted `<title>` value and
`extractedAt` the `new Date().toISOString()` string. -/
def parseHtml (lines : List String) (title extractedAt : String) :
    Iso9000Document :=
  let r := parseHtmlLoop lines (lines.length + 1) 0
  ⟨⟨title, extractedAt, r.2, r.1.length⟩, r.1⟩

end Iso9000Parser

namespace Iso9000ParserB

/-- `isRemarkLine` of the single-line variant (same test as the
multi-line variant). -/
def isRemarkLine (line : String) : Bool :=
  (hasPrefixStr "（" line && (match line.data.getLast? with
    | some c => c = '）'
    | none => false)) ||
  (hasPrefixStr "［" line && (match line.data.getLast? with
    | some c => c = '］'
    | none => false))

/-- `cleanNoteContent`: `content.replace(/^注記\d*\s+/, "")` — strip a
leading `注記`, a run of ASCII digits, and at least one whitespace
character; if no whitespace follows the digits, nothing is stripped. -/
def cleanNoteContent (s : String) : String :=
  match s.data with
  | '注' :: '記' :: rest =>
    match rest.dropWhile Char.isDigit with
    | c :: cs => if isWSChar c then ⟨cs.dropWhile isWSChar⟩ else s
    | [] => s
  | _ => s

/-- `cleanExampleContent`: `content.replace(/^例\s+/, "")`. -/
def cleanExampleContent (s : String) : String :=
  match s.data with
  | '例' :: c :: cs => if isWSChar c then ⟨cs.dropWhile isWSChar⟩ else s
  | _ => s

/-- `cleanRemarkContent`: `content.replace(/^（/, "").replace(/）$/, "")`
— strips only the full-width parenthesis pair, not `［`/`］`. -/
def cleanRemarkContent (s : String) : String :=
  let d1 := match s.data with
    | '（' :: r => r
    | r => r
  match d1.getLast? with
  | some '）' => ⟨d1.dropLast⟩
  | _ => ⟨d1⟩

/-- `processCommaSeparatedTerms`: re-join comma-separated parts with the
matching separator after trimming each part. -/
def processCommaSeparatedTerms (input : String) : String :=
  if input.data.contains '，' then
    joinSep "，" ((splitOnChar '，' input.data).map (fun p => trimS ⟨p⟩))
  else if input.data.contains ',' then
    joinSep ", " ((splitOnChar ',' input.data).map (fun p => trimS ⟨p⟩))
  else input

/-- The match `/^([^（]+)（([^）]+)）/` (full-width parentheses only)
used by the standard branch of `parseTermName` and by
`parseMultipleTermsWithParentheses`: returns the two raw groups. -/
def standardNameMatch (s : String) : Option (String × String) :=
  match breakAtFirst (fun c => c = '（') s.data with
  | some (before, after) =>
    if before.isEmpty then none
    else
      match breakAtFirst (fun c => c = '）') after with
      | some (inner, _) => if inner.isEmpty then none else some (⟨before⟩, ⟨inner⟩)
      | none => none
  | none => none

/-- One attempt of the test `/（[^）]+），[^（]+（[^）]+）/` at a fixed
position: `（`, a non-empty run without `）`, `）`, `，`, a non-empty run
without `（`, `（`, a non-empty run without `）`, `）`. -/
def multiPatAt (cs : List Char) : Bool :=
  match cs with
  | '（' :: r1 =>
    (match r1 with
     | [] => false
     | c :: cs1 =>
       if c = '）' then false
       else
         match breakAtFirst (fun x => x = '）') cs1 with
         | some (_, r2) =>
           (match r2 with
            | '，' :: r3 =>
              (match r3 with
               | [] => false
               | c2 :: cs3 =>
                 if c2 = '（' then false
                 else
                   match breakAtFirst (fun x => x = '（') cs3 with
                   | some (_, r4) =>
                     (match r4 with
                      | [] => false
                      | c3 :: cs5 =>
                        if c3 = '）' then false
                        else
                          match breakAtFirst (fun x => x = '）') cs5 with
                          | some _ => true
                          | none => false)
                   | none => false)
            | _ => false)
         | none => false)
  | _ => false

/-- `hasMultipleTermsWithParentheses`: the unanchored test of the pattern
above, tried at every position. -/
def hasMultiPat : List Char → Bool
  | [] => false
  | c :: cs => multiPatAt (c :: cs) || hasMultiPat cs

/-- `parseMultipleTermsWithParentheses`: split on the full-width comma and
collect, per part, the trimmed Japanese group and the trimmed,
whitespace-collapsed English group (or the whole trimmed part when it has
no parenthesised English). -/
def parseMultipleTermsWithParentheses (input : String) : List String × List String :=
  go ((splitOnChar '，' input.data).map (fun p => String.mk p))
where
  go : List String → List String × List String
    | [] => ([], [])
    | part :: rest =>
      let r := go rest
      match standardNameMatch (trimS part) with
      | some (ja, en) =>
        (trimS ja :: r.1, (⟨collapseWSChars false (trimS en).data⟩ : String) :: r.2)
      | none => (trimS part :: r.1, r.2)

/-- `parseTermName` of the single-line variant, applied to the (single)
term-name line read at the cursor: multi-pair names are split pairwise and
re-joined; otherwise the simple two-group match, then comma
normalisation. -/
def parseTermName (termNameLine : String) : String × Option String :=
  if hasMultiPat termNameLine.data then
    (joinSep "，" (parseMultipleTermsWithParentheses termNameLine).1,
     some (joinSep ", " (parseMultipleTermsWithParentheses termNameLine).2))
  else
    match standardNameMatch termNameLine with
    | some (ja, en) =>
      (processCommaSeparatedTerms (trimS ja),
       some (processCommaSeparatedTerms (trimS en)))
    | none => (processCommaSeparatedTerms termNameLine, none)

/-- The flush block used at the single-line variant's note/example
transitions and at its final flush: the guard is on the trimmed
accumulator, and notes/examples are cleaned with
`cleanNoteContent`/`cleanExampleContent` as they are stored. -/
def saveCurrent (st : CState) (acc defn : String) (notes examples : List String) :
    String × List String × List String :=
  match st with
  | .defn =>
    if trimS acc ≠ "" then (trimS acc, notes, examples) else (defn, notes, examples)
  | .note =>
    if trimS acc ≠ "" then (defn, notes ++ [cleanNoteContent (trimS acc)], examples)
    else (defn, notes, examples)
  | .ex =>
    if trimS acc ≠ "" then (defn, notes, examples ++ [cleanExampleContent (trimS acc)])
    else (defn, notes, examples)

/-- The flush block of the single-line variant's remark branch: same
trimmed-accumulator guard, but the stored note/example is the trimmed
accumulator itself, with no marker cleaning. -/
def saveCurrentRaw (st : CState) (acc defn : String) (notes examples : List String) :
    String × List String × List String :=
  match st with
  | .defn =>
    if trimS acc ≠ "" then (trimS acc, notes, examples) else (defn, notes, examples)
  | .note =>
    if trimS acc ≠ "" then (defn, notes ++ [trimS acc], examples)
    else (defn, notes, examples)
  | .ex =>
    if trimS acc ≠ "" then (defn, notes, examples ++ [trimS acc])
    else (defn, notes, examples)

/-- The `while` loop of the single-line variant's `parseTermContent`:
identical shape to the multi-line variant, but the remark is stored
through `cleanRemarkContent` and flushes go through this variant's
`saveCurrent`. -/
def contentLoop (lines : List String) :
    Nat → Nat → CState → String → String → List String → List String →
    Option String → CPhase
  | 0, i, st, acc, d, ns, es, rm => ⟨st, acc, d, ns, es, rm, i⟩
  | f + 1, i, st, acc, d, ns, es, rm =>
    if i < lines.length then
      if trimS (lines.getD i "") = "" then
        contentLoop lines f (i + 1) st acc d ns es rm
      else if Iso9000Parser.isTermId (trimS (lines.getD i "")) ||
          Iso9000Parser.isCategoryId (trimS (lines.getD i "")) then
        ⟨st, acc, d, ns, es, rm, i⟩
      else if isRemarkLine (trimS (lines.getD i "")) then
        contentLoop lines f (i + 1) st ""
          (saveCurrentRaw st acc d ns es).1
          (saveCurrentRaw st acc d ns es).2.1
          (saveCurrentRaw st acc d ns es).2.2
          (some (cleanRemarkContent (trimS (lines.getD i ""))))
      else if hasPrefixStr "注記" (trimS (lines.getD i "")) then
        contentLoop lines f (i + 1) CState.note (trimS (lines.getD i ""))
          (saveCurrent st acc d ns es).1
          (saveCurrent st acc d ns es).2.1
          (saveCurrent st acc d ns es).2.2
          rm
      else if hasPrefixStr "例" (trimS (lines.getD i "")) then
        contentLoop lines f (i + 1) CState.ex (trimS (lines.getD i ""))
          (saveCurrent st acc d ns es).1
          (saveCurrent st acc d ns es).2.1
          (saveCurrent st acc d ns es).2.2
          rm
      else
        contentLoop lines f (i + 1) st (acc ++ trimS (lines.getD i "")) d ns es rm
    else ⟨st, acc, d, ns, es, rm, i⟩

/-- `parseTermContent` of the single-line variant. -/
def parseTermContent (lines : List String) (i : Nat) : ContentResult :=
  let p := contentLoop lines (lines.length + 1) i CState.defn "" "" [] [] none
  ⟨(saveCurrent p.state p.content p.definition p.notes p.examples).1,
   (saveCurrent p.state p.content p.definition p.notes p.examples).2.1,
   (saveCurrent p.state p.content p.definition p.notes p.examples).2.2,
   p.remark, p.cursor⟩

end Iso9000ParserB

/-- Scenario A of the specification: one category, one bilingual term. -/
def scenarioA : List String :=
  ["3.1", "基本用語", "3.1.1", "品質（quality）",
   "対象に本来備わっている特性の集まりが、要求事項を満たす程度。"]

/-- The term that the multi-line parser extracts from `scenarioA`. -/
def termA : TermDefinition :=
  ⟨"3.1.1", "品質", some "quality",
   "対象に本来備わっている特性の集まりが、要求事項を満たす程度。", [], [], none⟩

/-- The category that the multi-line parser extracts from `scenarioA`. -/
def catA : CategoryData := ⟨"3.1", "基本用語", [termA]⟩

/-- A category boundary followed immediately by another category boundary:
the first category gets no terms. -/
def blocksTwoBoundaries : List String :=
  ["3.1", "甲", "3.2", "乙", "3.2.1", "品質（quality）", "対象を満たす程度。"]

/-- The single category the multi-line parser emits from
`blocksTwoBoundaries` (the first boundary is discarded). -/
def cat32 : CategoryData :=
  ⟨"3.2", "乙", [⟨"3.2.1", "品質", some "quality", "対象を満たす程度。", [], [], none⟩]⟩

/-- A term followed by a fully parenthesised reference block (Scenario C). -/
def blocksRemark : List String :=
  ["3.1", "用語", "3.1.1", "試験（test）", "対象を満たす程度。",
   "（ISO 9001:2015, 3.1 参照）"]

/-- A term with a definition, one note block and one example block. -/
def blocksNote : List String :=
  ["3.1", "基本用語", "3.1.1", "品質（quality）", "対象を満たす程度。",
   "注記1 特性とは、区別可能な性質をいう。", "例 この規格の例。"]

/-- A concatenated term name with two comma-joined bilingual pairs. -/
def nameMulti : String :=
  "品質マネジメント（quality management），品質管理（quality control）"

set_option maxRecDepth 80000

/-- Appending to the empty string is the identity. -/
theorem empty_append_str (s : String) : "" ++ s = s := by
  cases s
  rfl

namespace Iso9000Parser

/-- The content-classification loop never moves the cursor backwards. -/
theorem contentLoop_cursor_le (lines : List String) :
    ∀ f i st acc d ns es rm, i ≤ (contentLoop lines f i st acc d ns es rm).cursor := by
  intro f
  induction f with
  | zero => intro i st acc d ns es rm; exact Nat.le_refl i
  | succ f ih =>
    intro i st acc d ns es rm
    simp only [contentLoop]
    split_ifs with h1 h2 h3 h4 h5 h6
    · exact Nat.le_trans (Nat.le_succ i) (ih _ _ _ _ _ _ _)
    · exact Nat.le_refl i
    · exact Nat.le_trans (Nat.le_succ i) (ih _ _ _ _ _ _ _)
    · exact Nat.le_trans (Nat.le_succ i) (ih _ _ _ _ _ _ _)
    · exact Nat.le_trans (Nat.le_succ i) (ih _ _ _ _ _ _ _)
    · exact Nat.le_trans (Nat.le_succ i) (ih _ _ _ _ _ _ _)
    · exact Nat.le_refl i

/-- `parseTermContent` never moves the cursor backwards. -/
theorem parseTermContent_cursor_le (lines : List String) (i : Nat) :
    i ≤ (parseTermContent lines i).cursor :=
  contentLoop_cursor_le lines (lines.length + 1) i _ _ _ _ _ _

/-- The name-accumulation loop never moves the cursor backwards. -/
theorem nameLoop_cursor_le (lines : List String) :
    ∀ f i acc, i ≤ (nameLoop lines f i acc).2 := by
  intro f
  induction f with
  | zero => intro i acc; exact Nat.le_refl i
  | succ f ih =>
    intro i acc
    simp only [nameLoop]
    split_ifs with h1 h2 h3 h4
    · exact Nat.le_trans (Nat.le_succ i) (ih _ _)
    · exact Nat.le_refl i
    · exact Nat.le_refl i
    · exact Nat.le_trans (Nat.le_succ i) (ih _ _)
    · exact Nat.le_refl i

/-- `parseTermNameMultiLine` never moves the cursor backwards. -/
theorem parseTermNameMultiLine_cursor_le (lines : List String) (i : Nat) :
    i ≤ (parseTermNameMultiLine lines i).2 :=
  nameLoop_cursor_le lines (lines.length + 1) i ""

/-- `parseSingleTerm`, called on a non-blank block, consumes at least the
term-id block — also when the term is dropped. -/
theorem parseSingleTerm_cursor (lines : List String) (i : Nat)
    (h1 : i < lines.length) (h2 : trimS (lines.getD i "") ≠ "") :
    i + 1 ≤ (parseSingleTerm lines i).2 := by
  have hn : i + 1 ≤ (parseTermNameMultiLine lines (i + 1)).2 :=
    parseTermNameMultiLine_cursor_le lines (i + 1)
  have hc : (parseTermNameMultiLine lines (i + 1)).2 ≤
      (parseTermContent lines (parseTermNameMultiLine lines (i + 1)).2).cursor :=
    parseTermContent_cursor_le lines _
  simp only [parseSingleTerm, if_pos h1, if_neg h2]
  split_ifs with h3
  · exact Nat.le_trans hn hc
  · exact Nat.le_trans hn hc

/-- The term-discovery loop never moves the cursor backwards. -/
theorem termsLoop_cursor_le (lines : List String) :
    ∀ f i, i ≤ (termsLoop lines f i).2 := by
  intro f
  induction f with
  | zero => intro i; exact Nat.le_refl i
  | succ f ih =>
    intro i
    simp only [termsLoop]
    split_ifs with h1 h2 h3 h4
    · exact Nat.le_trans (Nat.le_succ i) (ih _)
    · exact Nat.le_refl i
    · exact Nat.le_trans (Nat.le_trans (Nat.le_succ i)
        (parseSingleTerm_cursor lines i h1 h2)) (ih _)
    · exact Nat.le_trans (Nat.le_succ i) (ih _)
    · exact Nat.le_refl i

/-- `parseTermsInCategory` never moves the cursor backwards. -/
theorem parseTermsInCategory_cursor_le (lines : List String) (i : Nat) :
    i ≤ (parseTermsInCategory lines i).2 :=
  termsLoop_cursor_le lines (lines.length + 1) i

/-- When the category-scan loop finds a boundary it has consumed at least
the id and title blocks, and its cursor stays within the sequence. -/
theorem findNextCategoryLoop_bounds (lines : List String) :
    ∀ f i cb, findNextCategoryLoop lines f i = some cb →
      i + 2 ≤ cb.2.2 ∧ cb.2.2 ≤ lines.length := by
  intro f
  induction f with
  | zero => intro i cb h; simp [findNextCategoryLoop] at h
  | succ f ih =>
    intro i cb h
    simp only [findNextCategoryLoop] at h
    split_ifs at h with h1 h2 h3 h4 h5
    · have := ih _ _ h; omega
    · cases h
      refine ⟨Nat.le_refl _, ?_⟩
      show i + 2 ≤ lines.length
      omega
    · have := ih _ _ h; omega
    · have := ih _ _ h; omega
    · have := ih _ _ h; omega

/-- `findNextCategory` bounds. -/
theorem findNextCategory_bounds (lines : List String) (i : Nat) (cb : String × String × Nat)
    (h : findNextCategory lines i = some cb) :
    i + 2 ≤ cb.2.2 ∧ cb.2.2 ≤ lines.length :=
  findNextCategoryLoop_bounds lines (lines.length + 1) i cb h

/-- The content loop's result does not depend on the fuel once the fuel
exceeds the number of remaining blocks: the loop reaches its natural exit
first.  This is the termination argument for the content phase. -/
theorem contentLoop_stable (lines : List String) :
    ∀ f g i st acc d ns es rm, lines.length - i < f → lines.length - i < g →
      contentLoop lines f i st acc d ns es rm = contentLoop lines g i st acc d ns es rm := by
  intro f
  induction f with
  | zero => intro g i st acc d ns es rm hf hg; omega
  | succ f ih =>
    intro g i st acc d ns es rm hf hg
    cases g with
    | zero => omega
    | succ g =>
      simp only [contentLoop]
      split_ifs with h1 h2 h3 h4 h5 h6 <;>
        first
          | rfl
          | exact ih _ _ _ _ _ _ _ _ (by omega) (by omega)

/-- Fuel-independence of the name-accumulation loop. -/
theorem nameLoop_stable (lines : List String) :
    ∀ f g i acc, lines.length - i < f → lines.length - i < g →
      nameLoop lines f i acc = nameLoop lines g i acc := by
  intro f
  induction f with
  | zero => intro g i acc hf hg; omega
  | succ f ih =>
    intro g i acc hf hg
    cases g with
    | zero => omega
    | succ g =>
      simp only [nameLoop]
      split_ifs with h1 h2 h3 h4 <;>
        first
          | rfl
          | exact ih _ _ _ (by omega) (by omega)

/-- Fuel-independence of the category-scan loop. -/
theorem findNextCategoryLoop_stable (lines : List String) :
    ∀ f g i, lines.length - i < f → lines.length - i < g →
      findNextCategoryLoop lines f i = findNextCategoryLoop lines g i := by
  intro f
  induction f with
  | zero => intro g i hf hg; omega
  | succ f ih =>
    intro g i hf hg
    cases g with
    | zero => omega
    | succ g =>
      simp only [findNextCategoryLoop]
      split_ifs with h1 h2 h3 h4 h5 <;>
        first
          | rfl
          | exact ih _ _ (by omega) (by omega)

/-- Fuel-independence of the term-discovery loop. -/
theorem termsLoop_stable (lines : List String) :
    ∀ f g i, lines.length - i < f → lines.length - i < g →
      termsLoop lines f i = termsLoop lines g i := by
  intro f
  induction f with
  | zero => intro g i hf hg; omega
  | succ f ih =>
    intro g i hf hg
    cases g with
    | zero => omega
    | succ g =>
      simp only [termsLoop]
      split_ifs with h1 h2 h3 h4
      · exact ih _ _ (by omega) (by omega)
      · rfl
      · have hj : i + 1 ≤ (parseSingleTerm lines i).2 :=
          parseSingleTerm_cursor lines i h1 h2
        rw [ih g (parseSingleTerm lines i).2 (by omega) (by omega)]
      · exact ih _ _ (by omega) (by omega)
      · rfl

/-- Unfolding: the outer loop when the remaining input is exhausted. -/
theorem parseHtmlLoop_succ_end (lines : List String) (f i : Nat)
    (h1 : ¬ i < lines.length) :
    parseHtmlLoop lines (f + 1) i = ([], 0) := by
  simp only [parseHtmlLoop, if_neg h1]

/-- Unfolding: the outer loop when no further boundary exists. -/
theorem parseHtmlLoop_succ_none (lines : List String) (f i : Nat)
    (h1 : i < lines.length) (hcb : findNextCategory lines i = none) :
    parseHtmlLoop lines (f + 1) i = ([], 0) := by
  simp only [parseHtmlLoop, if_pos h1, hcb]

/-- Unfolding: the outer loop when the next boundary has been found. -/
theorem parseHtmlLoop_succ_some (lines : List String) (f i : Nat)
    (cb : String × String × Nat) (h1 : i < lines.length)
    (hcb : findNextCategory lines i = some cb) :
    parseHtmlLoop lines (f + 1) i =
      (if 0 < (parseTermsInCategory lines cb.2.2).1.length then
        (⟨cb.1, cb.2.1, (parseTermsInCategory lines cb.2.2).1⟩ ::
            (parseHtmlLoop lines f (parseTermsInCategory lines cb.2.2).2).1,
         (parseTermsInCategory lines cb.2.2).1.length +
            (parseHtmlLoop lines f (parseTermsInCategory lines cb.2.2).2).2)
      else parseHtmlLoop lines f (parseTermsInCategory lines cb.2.2).2) := by
  simp only [parseHtmlLoop, if_pos h1, hcb]

/-- Fuel-independence of the outer category loop. -/
theorem parseHtmlLoop_stable (lines : List String) :
    ∀ f g i, lines.length - i < f → lines.length - i < g →
      parseHtmlLoop lines f i = parseHtmlLoop lines g i := by
  intro f
  induction f with
  | zero => intro g i hf hg; omega
  | succ f ih =>
    intro g i hf hg
    cases g with
    | zero => omega
    | succ g =>
      by_cases h1 : i < lines.length
      · cases hcb : findNextCategory lines i with
        | none =>
          rw [parseHtmlLoop_succ_none lines f i h1 hcb,
              parseHtmlLoop_succ_none lines g i h1 hcb]
        | some cb =>
          have hb := findNextCategory_bounds lines i cb hcb
          have hk : cb.2.2 ≤ (parseTermsInCategory lines cb.2.2).2 :=
            parseTermsInCategory_cursor_le lines cb.2.2
          rw [parseHtmlLoop_succ_some lines f i cb h1 hcb,
              parseHtmlLoop_succ_some lines g i cb h1 hcb,
              ih g (parseTermsInCategory lines cb.2.2).2 (by omega) (by omega)]
      · rw [parseHtmlLoop_succ_end lines f i h1, parseHtmlLoop_succ_end lines g i h1]

/-- The incrementally accumulated `totalTerms` counter of the outer loop
always equals the recount over the emitted category list. -/
theorem parseHtmlLoop_total (lines : List String) :
    ∀ f i, (parseHtmlLoop lines f i).2 =
      ((parseHtmlLoop lines f i).1.map (fun c => c.terms.length)).sum := by
  intro f
  induction f with
  | zero => intro i; rfl
  | succ f ih =>
    intro i
    by_cases h1 : i < lines.length
    · cases hcb : findNextCategory lines i with
      | none => rw [parseHtmlLoop_succ_none lines f i h1 hcb]; rfl
      | some cb =>
        rw [parseHtmlLoop_succ_some lines f i cb h1 hcb]
        split_ifs with h2
        · simp only [List.map_cons, List.sum_cons]
          rw [ih]
        · exact ih _
    · rw [parseHtmlLoop_succ_end lines f i h1]; rfl

/-- Every term a successful `parseSingleTerm` returns has a non-empty
definition (the `if (!definition) return null` guard). -/
theorem parseSingleTerm_some_def (lines : List String) (i : Nat)
    (t : TermDefinition) (h : (parseSingleTerm lines i).1 = some t) :
    t.definition ≠ "" := by
  simp only [parseSingleTerm] at h
  split_ifs at h with h1 h2 h3
  have ht := Option.some.inj h
  subst ht
  exact h3

/-- Whatever the content loop returns in the remark slot is either the
incoming value or, verbatim, the trimmed text of some remark-shaped input
block (brackets included). -/
theorem contentLoop_remark_src (lines : List String) :
    ∀ f i st acc d ns es rm,
      (contentLoop lines f i st acc d ns es rm).remark = rm ∨
      ∃ j, i ≤ j ∧ j < lines.length ∧
        isRemarkLine (trimS (lines.getD j "")) = true ∧
        (contentLoop lines f i st acc d ns es rm).remark =
          some (trimS (lines.getD j "")) := by
  intro f
  induction f with
  | zero => intro i st acc d ns es rm; exact Or.inl rfl
  | succ f ih =>
    intro i st acc d ns es rm
    simp only [contentLoop]
    split_ifs with h1 h2 h3 h4 h5 h6
    · rcases ih (i + 1) st acc d ns es rm with h | ⟨j, hj1, hj2, hj3, hj4⟩
      · exact Or.inl h
      · exact Or.inr ⟨j, by omega, hj2, hj3, hj4⟩
    · exact Or.inl rfl
    · rcases ih (i + 1) st ""
          (saveCurrent st acc d ns es).1
          (saveCurrent st acc d ns es).2.1
          (saveCurrent st acc d ns es).2.2
          (some (trimS (lines.getD i ""))) with h | ⟨j, hj1, hj2, hj3, hj4⟩
      · exact Or.inr ⟨i, Nat.le_refl i, h1, h4, h⟩
      · exact Or.inr ⟨j, by omega, hj2, hj3, hj4⟩
    · rcases ih (i + 1) CState.note (trimS (lines.getD i ""))
          (saveCurrent st acc d ns es).1
          (saveCurrent st acc d ns es).2.1
          (saveCurrent st acc d ns es).2.2
          rm with h | ⟨j, hj1, hj2, hj3, hj4⟩
      · exact Or.inl h
      · exact Or.inr ⟨j, by omega, hj2, hj3, hj4⟩
    · rcases ih (i + 1) CState.ex (trimS (lines.getD i ""))
          (saveCurrent st acc d ns es).1
          (saveCurrent st acc d ns es).2.1
          (saveCurrent st acc d ns es).2.2
          rm with h | ⟨j, hj1, hj2, hj3, hj4⟩
      · exact Or.inl h
      · exact Or.inr ⟨j, by omega, hj2, hj3, hj4⟩
    · rcases ih (i + 1) st (acc ++ trimS (lines.getD i "")) d ns es rm with
        h | ⟨j, hj1, hj2, hj3, hj4⟩
      · exact Or.inl h
      · exact Or.inr ⟨j, by omega, hj2, hj3, hj4⟩
    · exact Or.inl rfl

end Iso9000Parser

namespace Iso9000ParserB

/-- Whatever the single-line variant's content loop returns in the remark
slot is either the incoming value or `cleanRemarkContent` of the trimmed
text of some remark-shaped input block. -/
theorem contentLoop_remark_b (lines : List String) :
    ∀ f i st acc d ns es rm,
      (contentLoop lines f i st acc d ns es rm).remark = rm ∨
      ∃ j, i ≤ j ∧ j < lines.length ∧
        isRemarkLine (trimS (lines.getD j "")) = true ∧
        (contentLoop lines f i st acc d ns es rm).remark =
          some (cleanRemarkContent (trimS (lines.getD j ""))) := by
  intro f
  induction f with
  | zero => intro i st acc d ns es rm; exact Or.inl rfl
  | succ f ih =>
    intro i st acc d ns es rm
    simp only [contentLoop]
    split_ifs with h1 h2 h3 h4 h5 h6
    · rcases ih (i + 1) st acc d ns es rm with h | ⟨j, hj1, hj2, hj3, hj4⟩
      · exact Or.inl h
      · exact Or.inr ⟨j, by omega, hj2, hj3, hj4⟩
    · exact Or.inl rfl
    · rcases ih (i + 1) st ""
          (saveCurrentRaw st acc d ns es).1
          (saveCurrentRaw st acc d ns es).2.1
          (saveCurrentRaw st acc d ns es).2.2
          (some (cleanRemarkContent (trimS (lines.getD i "")))) with
        h | ⟨j, hj1, hj2, hj3, hj4⟩
      · exact Or.inr ⟨i, Nat.le_refl i, h1, h4, h⟩
      · exact Or.inr ⟨j, by omega, hj2, hj3, hj4⟩
    · rcases ih (i + 1) CState.note (trimS (lines.getD i ""))
          (saveCurrent st acc d ns es).1
          (saveCurrent st acc d ns es).2.1
          (saveCurrent st acc d ns es).2.2
          rm with h | ⟨j, hj1, hj2, hj3, hj4⟩
      · exact Or.inl h
      · exact Or.inr ⟨j, by omega, hj2, hj3, hj4⟩
    · rcases ih (i + 1) CState.ex (trimS (lines.getD i ""))
          (saveCurrent st acc d ns es).1
          (saveCurrent st acc d ns es).2.1
          (saveCurrent st acc d ns es).2.2
          rm with h | ⟨j, hj1, hj2, hj3, hj4⟩
      · exact Or.inl h
      · exact Or.inr ⟨j, by omega, hj2, hj3, hj4⟩
    · rcases ih (i + 1) st (acc ++ trimS (lines.getD i "")) d ns es rm with
        h | ⟨j, hj1, hj2, hj3, hj4⟩
      · exact Or.inl h
      · exact Or.inr ⟨j, by omega, hj2, hj3, hj4⟩
    · exact Or.inl rfl

end Iso9000ParserB

namespace Iso9000Parser

/-- Every term collected by the term-discovery loop has a non-empty
definition. -/
theorem termsLoop_def_ne (lines : List String) :
    ∀ f i t, t ∈ (termsLoop lines f i).1 → t.definition ≠ "" := by
  intro f
  induction f with
  | zero => intro i t h; simp [termsLoop] at h
  | succ f ih =>
    intro i t h
    simp only [termsLoop] at h
    split_ifs at h with h1 h2 h3 h4
    · exact ih _ _ h
    · simp at h
    · cases hp : (parseSingleTerm lines i).1 with
      | none => rw [hp] at h; exact ih _ _ h
      | some t' =>
        rw [hp] at h
        rcases List.mem_cons.mp h with h' | h'
        · exact h' ▸ parseSingleTerm_some_def lines i t' hp
        · exact ih _ _ h'
    · exact ih _ _ h
    · simp at h

/-- Every category the outer loop emits has a non-empty term list, and
all its terms have non-empty definitions. -/
theorem parseHtmlLoop_mem (lines : List String) :
    ∀ f i c, c ∈ (parseHtmlLoop lines f i).1 →
      c.terms ≠ [] ∧ ∀ t ∈ c.terms, t.definition ≠ "" := by
  intro f
  induction f with
  | zero => intro i c h; simp [parseHtmlLoop] at h
  | succ f ih =>
    intro i c h
    by_cases h1 : i < lines.length
    · cases hcb : findNextCategory lines i with
      | none => rw [parseHtmlLoop_succ_none lines f i h1 hcb] at h; simp at h
      | some cb =>
        rw [parseHtmlLoop_succ_some lines f i cb h1 hcb] at h
        split_ifs at h with h2
        · rcases List.mem_cons.mp h with h' | h'
          · subst h'
            refine ⟨List.ne_nil_of_length_pos h2, ?_⟩
            intro t ht
            exact termsLoop_def_ne lines _ _ t ht
          · exact ih _ _ h'
        · exact ih _ _ h
    · rw [parseHtmlLoop_succ_end lines f i h1] at h; simp at h

end Iso9000Parser

/-- C1: for every block sequence, every Term record present in the
Document returned by the structuring pass has a non-empty definition
string; a term whose definition comes out empty is not added to its
category's term list while the cursor is still advanced past its blocks. -/
theorem c1_nonempty_definitions :
    (∀ (lines : List String) (title ts : String) (c : CategoryData) (t : TermDefinition),
        c ∈ (Iso9000Parser.parseHtml lines title ts).categories → t ∈ c.terms →
        t.definition ≠ "") ∧
    (∀ (lines : List String) (i : Nat),
        i < lines.length → trimS (lines.getD i "") ≠ "" →
        (Iso9000Parser.parseSingleTerm lines i).1 = none →
        i + 1 ≤ (Iso9000Parser.parseSingleTerm lines i).2) := by
  constructor
  · intro lines title ts c t hc ht
    exact (Iso9000Parser.parseHtmlLoop_mem lines (lines.length + 1) 0 c hc).2 t ht
  · intro lines i h1 h2 _hnone
    exact Iso9000Parser.parseSingleTerm_cursor lines i h1 h2

/-- Witness for C1: on Scenario A the emitted term has a non-empty
definition, and a term id with no recoverable definition is dropped with
the cursor advanced. -/
theorem c1_witness :
    termA.definition ≠ "" ∧ 0 + 1 ≤ (Iso9000Parser.parseSingleTerm ["3.1.1"] 0).2 :=
  ⟨c1_nonempty_definitions.1 scenarioA "T" "E" catA termA (by decide) (by decide),
   c1_nonempty_definitions.2 ["3.1.1"] 0 (by decide) (by decide) (by decide)⟩

/-- C2: for every input, the Document returned by parseHtml satisfies
`metadata.totalTerms` = sum of `terms.length` over its categories and
`metadata.totalCategories` = the length of the category list. -/
theorem c2_totals_recomputed :
    ∀ (lines : List String) (title ts : String),
      (Iso9000Parser.parseHtml lines title ts).metadata.totalTerms =
        ((Iso9000Parser.parseHtml lines title ts).categories.map
          (fun c => c.terms.length)).sum ∧
      (Iso9000Parser.parseHtml lines title ts).metadata.totalCategories =
        (Iso9000Parser.parseHtml lines title ts).categories.length := by
  intro lines title ts
  exact ⟨Iso9000Parser.parseHtmlLoop_total lines (lines.length + 1) 0, rfl⟩

/-- C6: a category boundary under which zero valid terms are parsed
contributes no Category to the output; in particular a boundary followed
immediately by another boundary yields no category for the first. -/
theorem c6_empty_category_discarded :
    (∀ (lines : List String) (title ts : String) (c : CategoryData),
        c ∈ (Iso9000Parser.parseHtml lines title ts).categories → c.terms ≠ []) ∧
    (∀ (title ts : String),
        (Iso9000Parser.parseHtml blocksTwoBoundaries title ts).categories.map
          (fun c => c.id) = ["3.2"]) := by
  constructor
  · intro lines title ts c hc
    exact (Iso9000Parser.parseHtmlLoop_mem lines (lines.length + 1) 0 c hc).1
  · intro title ts
    rfl

/-- Witness for C6: the category emitted from `blocksTwoBoundaries` has a
non-empty term list. -/
theorem c6_witness : cat32.terms ≠ [] :=
  c6_empty_category_discarded.1 blocksTwoBoundaries "T" "E" cat32 (by decide)

/-- C7: the structuring pass terminates on every block sequence: each of
its four scanning loops and the outer category loop is fuel-independent as
soon as the fuel exceeds the number of remaining blocks (so the bounded
iteration always reaches its natural exit), the category scan consumes at
least two blocks per boundary, and a term parse always advances the
cursor — every anomaly reduces to skipping one block or discarding a
term/category. -/
theorem c7_structuring_terminates :
    (∀ (lines : List String) (f g i : Nat) (st : CState) (acc d : String)
        (ns es : List String) (rm : Option String),
        lines.length - i < f → lines.length - i < g →
        Iso9000Parser.contentLoop lines f i st acc d ns es rm =
          Iso9000Parser.contentLoop lines g i st acc d ns es rm) ∧
    (∀ (lines : List String) (f g i : Nat) (acc : String),
        lines.length - i < f → lines.length - i < g →
        Iso9000Parser.nameLoop lines f i acc = Iso9000Parser.nameLoop lines g i acc) ∧
    (∀ (lines : List String) (f g i : Nat),
        lines.length - i < f → lines.length - i < g →
        Iso9000Parser.termsLoop lines f i = Iso9000Parser.termsLoop lines g i) ∧
    (∀ (lines : List String) (f g i : Nat),
        lines.length - i < f → lines.length - i < g →
        Iso9000Parser.findNextCategoryLoop lines f i =
          Iso9000Parser.findNextCategoryLoop lines g i) ∧
    (∀ (lines : List String) (f g i : Nat),
        lines.length - i < f → lines.length - i < g →
        Iso9000Parser.parseHtmlLoop lines f i = Iso9000Parser.parseHtmlLoop lines g i) ∧
    (∀ (lines : List String) (i : Nat) (cb : String × String × Nat),
        Iso9000Parser.findNextCategory lines i = some cb → i + 2 ≤ cb.2.2) ∧
    (∀ (lines : List String) (i : Nat),
        i < lines.length → trimS (lines.getD i "") ≠ "" →
        i + 1 ≤ (Iso9000Parser.parseSingleTerm lines i).2) := by
  refine ⟨?_, ?_, ?_, ?_, ?_, ?_, ?_⟩
  · intro lines f g i st acc d ns es rm hf hg
    exact Iso9000Parser.contentLoop_stable lines f g i st acc d ns es rm hf hg
  · intro lines f g i acc hf hg
    exact Iso9000Parser.nameLoop_stable lines f g i acc hf hg
  · intro lines f g i hf hg
    exact Iso9000Parser.termsLoop_stable lines f g i hf hg
  · intro lines f g i hf hg
    exact Iso9000Parser.findNextCategoryLoop_stable lines f g i hf hg
  · intro lines f g i hf hg
    exact Iso9000Parser.parseHtmlLoop_stable lines f g i hf hg
  · intro lines i cb hcb
    exact (Iso9000Parser.findNextCategory_bounds lines i cb hcb).1
  · intro lines i h1 h2
    exact Iso9000Parser.parseSingleTerm_cursor lines i h1 h2

/-- Witness for C7: on Scenario A the outer loop's value is independent of
the fuel, and a term parse advances the cursor. -/
theorem c7_witness :
    Iso9000Parser.parseHtmlLoop scenarioA 6 0 = Iso9000Parser.parseHtmlLoop scenarioA 17 0 ∧
    0 + 1 ≤ (Iso9000Parser.parseSingleTerm ["3.1.1"] 0).2 :=
  ⟨c7_structuring_terminates.2.2.2.2.1 scenarioA 6 17 0 (by decide) (by decide),
   c7_structuring_terminates.2.2.2.2.2.2 ["3.1.1"] 0 (by decide) (by decide)⟩

/-- C8: two structuring runs over the identical block sequence and title
produce identical Documents except for the `extractedAt` timestamp: the
run's output equals the other run's output with only `extractedAt`
replaced. -/
theorem c8_idempotent_modulo_timestamp :
    ∀ (lines : List String) (title ts1 ts2 : String),
      Iso9000Parser.parseHtml lines title ts1 =
        { Iso9000Parser.parseHtml lines title ts2 with
            metadata := { (Iso9000Parser.parseHtml lines title ts2).metadata with
              extractedAt := ts1 } } := by
  intro lines title ts1 ts2
  rfl

/-- The two variants use the same remark-line test. -/
theorem isRemarkLine_b_eq (s : String) :
    Iso9000ParserB.isRemarkLine s = Iso9000Parser.isRemarkLine s := rfl

/-- Counterexample to C3 as stated: on an explicit input whose remark
block is exactly the claim's example, the multi-line structuring pass
records the remark with the enclosing brackets still present, not the
inner text. -/
theorem c3_counterexample :
    ((Iso9000Parser.parseHtml blocksRemark "T" "E").categories.map
      (fun c => c.terms.map (fun t => t.remark))) =
        [[some "（ISO 9001:2015, 3.1 参照）"]] ∧
    ((Iso9000Parser.parseHtml blocksRemark "T" "E").categories.map
      (fun c => c.terms.map (fun t => t.remark))) ≠
        [[some "ISO 9001:2015, 3.1 参照"]] := by
  constructor <;> decide

/-- C3 (amended): when a content-phase block is fully bracket-wrapped the
remark slot receives the block's trimmed text — verbatim, brackets
included, in the multi-line variant; through `cleanRemarkContent` in the
single-line variant, which strips a leading `（` and a trailing `）` but
leaves `［`/`］` in place.  Every remark ever stored originates from such
a block in exactly this way. -/
theorem c3_remark_verbatim_or_cleaned :
    (∀ (lines : List String) (i : Nat),
        (Iso9000Parser.parseTermContent lines i).remark = none ∨
        ∃ j, i ≤ j ∧ j < lines.length ∧
          Iso9000Parser.isRemarkLine (trimS (lines.getD j "")) = true ∧
          (Iso9000Parser.parseTermContent lines i).remark =
            some (trimS (lines.getD j ""))) ∧
    (∀ (lines : List String) (i : Nat),
        (Iso9000ParserB.parseTermContent lines i).remark = none ∨
        ∃ j, i ≤ j ∧ j < lines.length ∧
          Iso9000ParserB.isRemarkLine (trimS (lines.getD j "")) = true ∧
          (Iso9000ParserB.parseTermContent lines i).remark =
            some (Iso9000ParserB.cleanRemarkContent (trimS (lines.getD j "")))) ∧
    Iso9000ParserB.cleanRemarkContent "（ISO 9001:2015, 3.1 参照）" =
      "ISO 9001:2015, 3.1 参照" ∧
    Iso9000ParserB.cleanRemarkContent "［出典：ISO 9000］" = "［出典：ISO 9000］" ∧
    (Iso9000Parser.parseTermContent
      ["対象を満たす程度。", "（ISO 9001:2015, 3.1 参照）"] 0).remark =
        some "（ISO 9001:2015, 3.1 参照）" ∧
    (Iso9000ParserB.parseTermContent
      ["対象を満たす程度。", "（ISO 9001:2015, 3.1 参照）"] 0).remark =
        some "ISO 9001:2015, 3.1 参照" ∧
    (Iso9000ParserB.parseTermContent
      ["対象を満たす程度。", "［出典：ISO 9000］"] 0).remark =
        some "［出典：ISO 9000］" := by
  refine ⟨?_, ?_, by decide, by decide, by decide, by decide, by decide⟩
  · intro lines i
    exact Iso9000Parser.contentLoop_remark_src lines (lines.length + 1) i
      CState.defn "" "" [] [] none
  · intro lines i
    exact Iso9000ParserB.contentLoop_remark_b lines (lines.length + 1) i
      CState.defn "" "" [] [] none

/-- Counterexample to C4 as stated: on an explicit input the multi-line
structuring pass stores the note and the example with their leading
`注記1 ` / `例 ` markers still present. -/
theorem c4_counterexample :
    ((Iso9000Parser.parseHtml blocksNote "T" "E").categories.map
      (fun c => c.terms.map (fun t => (t.notes, t.examples)))) =
        [[(["注記1 特性とは、区別可能な性質をいう。"], ["例 この規格の例。"])]] ∧
    ("注記1 特性とは、区別可能な性質をいう。" : String) ≠
      "特性とは、区別可能な性質をいう。" ∧
    ("例 この規格の例。" : String) ≠ "この規格の例。" := by
  refine ⟨by decide, by decide, by decide⟩

/-- C4 (amended): when the content-phase classifier flushes into the
notes or examples list, the multi-line variant stores the trimmed
accumulator verbatim — classification marker and index digits included —
at every flush site.  The single-line variant strips the leading marker
(and, for notes, its index digits, when the marker is followed by
whitespace) through `cleanNoteContent`/`cleanExampleContent` only at its
note/example-transition and end-of-phase flushes; its remark-branch flush
stores the trimmed accumulator raw, marker included, in both variants. -/
theorem c4_markers_kept_or_cleaned :
    (∀ s : String, trimS s = s → hasPrefixStr "注記" s = true →
        Iso9000Parser.isTermId s = false → Iso9000Parser.isCategoryId s = false →
        Iso9000Parser.isRemarkLine s = false →
        (Iso9000Parser.parseTermContent ["対象を満たす程度。", s] 0).notes = [s] ∧
        (Iso9000ParserB.parseTermContent ["対象を満たす程度。", s] 0).notes =
          [Iso9000ParserB.cleanNoteContent s]) ∧
    (∀ s : String, trimS s = s → hasPrefixStr "例" s = true →
        hasPrefixStr "注記" s = false →
        Iso9000Parser.isTermId s = false → Iso9000Parser.isCategoryId s = false →
        Iso9000Parser.isRemarkLine s = false →
        (Iso9000Parser.parseTermContent ["対象を満たす程度。", s] 0).examples = [s] ∧
        (Iso9000ParserB.parseTermContent ["対象を満たす程度。", s] 0).examples =
          [Iso9000ParserB.cleanExampleContent s]) ∧
    (∀ s : String, trimS s = s → hasPrefixStr "注記" s = true →
        Iso9000Parser.isTermId s = false → Iso9000Parser.isCategoryId s = false →
        Iso9000Parser.isRemarkLine s = false →
        (Iso9000ParserB.parseTermContent
          ["対象を満たす程度。", s, "（ISO 9001:2015, 3.1 参照）"] 0).notes = [s] ∧
        (Iso9000Parser.parseTermContent
          ["対象を満たす程度。", s, "（ISO 9001:2015, 3.1 参照）"] 0).notes = [s]) ∧
    Iso9000ParserB.cleanNoteContent "注記1 特性とは、区別可能な性質をいう。" =
      "特性とは、区別可能な性質をいう。" ∧
    Iso9000ParserB.cleanExampleContent "例 この規格の例。" = "この規格の例。" := by
  refine ⟨?_, ?_, ?_, by decide, by decide⟩
  · intro s h1 h2 h3 h4 h5
    have hs : s ≠ "" := by
      intro h
      subst h
      exact absurd h2 (by decide)
    have h5b : Iso9000ParserB.isRemarkLine s = false :=
      (isRemarkLine_b_eq s).trans h5
    constructor
    · simp +decide [Iso9000Parser.parseTermContent, Iso9000Parser.contentLoop,
        Iso9000Parser.saveCurrent, List.getD_cons_zero, List.getD_cons_succ,
        h1, h2, h3, h4, h5, hs]
    · simp +decide [Iso9000ParserB.parseTermContent, Iso9000ParserB.contentLoop,
        Iso9000ParserB.saveCurrent, List.getD_cons_zero, List.getD_cons_succ,
        h1, h2, h3, h4, h5b, hs]
  · intro s h1 h2 h2n h3 h4 h5
    have hs : s ≠ "" := by
      intro h
      subst h
      exact absurd h2 (by decide)
    have h5b : Iso9000ParserB.isRemarkLine s = false :=
      (isRemarkLine_b_eq s).trans h5
    constructor
    · simp +decide [Iso9000Parser.parseTermContent, Iso9000Parser.contentLoop,
        Iso9000Parser.saveCurrent, List.getD_cons_zero, List.getD_cons_succ,
        h1, h2, h2n, h3, h4, h5, hs]
    · simp +decide [Iso9000ParserB.parseTermContent, Iso9000ParserB.contentLoop,
        Iso9000ParserB.saveCurrent, List.getD_cons_zero, List.getD_cons_succ,
        h1, h2, h2n, h3, h4, h5b, hs]
  · intro s h1 h2 h3 h4 h5
    have hs : s ≠ "" := by
      intro h
      subst h
      exact absurd h2 (by decide)
    have h5b : Iso9000ParserB.isRemarkLine s = false :=
      (isRemarkLine_b_eq s).trans h5
    constructor
    · simp +decide [Iso9000ParserB.parseTermContent, Iso9000ParserB.contentLoop,
        Iso9000ParserB.saveCurrent, Iso9000ParserB.saveCurrentRaw,
        List.getD_cons_zero, List.getD_cons_succ,
        h1, h2, h3, h4, h5b, hs]
    · simp +decide [Iso9000Parser.parseTermContent, Iso9000Parser.contentLoop,
        Iso9000Parser.saveCurrent, List.getD_cons_zero, List.getD_cons_succ,
        h1, h2, h3, h4, h5, hs]

/-- Witness for C4: the note block of Scenario B instantiates both the
universally quantified cleaning-path statement and the universally
quantified remark-branch raw-flush statement. -/
theorem c4_witness :
    ((Iso9000Parser.parseTermContent
      ["対象を満たす程度。", "注記1 特性とは、区別可能な性質をいう。"] 0).notes =
        ["注記1 特性とは、区別可能な性質をいう。"] ∧
    (Iso9000ParserB.parseTermContent
      ["対象を満たす程度。", "注記1 特性とは、区別可能な性質をいう。"] 0).notes =
        [Iso9000ParserB.cleanNoteContent "注記1 特性とは、区別可能な性質をいう。"]) ∧
    (Iso9000ParserB.parseTermContent
      ["対象を満たす程度。", "注記1 特性とは、区別可能な性質をいう。",
       "（ISO 9001:2015, 3.1 参照）"] 0).notes =
        ["注記1 特性とは、区別可能な性質をいう。"] :=
  ⟨c4_markers_kept_or_cleaned.1 "注記1 特性とは、区別可能な性質をいう。"
    (by decide) (by decide) (by decide) (by decide) (by decide),
   (c4_markers_kept_or_cleaned.2.2.1 "注記1 特性とは、区別可能な性質をいう。"
    (by decide) (by decide) (by decide) (by decide) (by decide)).1⟩

/-- Counterexample to C5 as stated: the multi-line variant's
`parseTermName` applies only the simple two-group match to a multi-pair
name, keeping just the first pair instead of rejoining all pairs. -/
theorem c5_counterexample :
    Iso9000Parser.parseTermName nameMulti =
      ("品質マネジメント", some "quality management") ∧
    Iso9000Parser.parseTermName nameMulti ≠
      ("品質マネジメント，品質管理", some "quality management, quality control") := by
  constructor <;> decide

/-- C5 (amended): the single-line variant's `parseTermName` splits a
comma-joined multi-pair name into comma-rejoined primary parts and
", "-rejoined secondary parts, and uses the simple two-group match when
the repeating pattern is absent; the multi-line variant's `parseTermName`
always uses the simple two-group match, so a multi-pair name keeps only
its first pair. -/
theorem c5_bilingual_split :
    Iso9000ParserB.parseTermName nameMulti =
      ("品質マネジメント，品質管理", some "quality management, quality control") ∧
    Iso9000ParserB.parseTermName
        "力量（competence），要員（person），能力（ability）" =
      ("力量，要員，能力", some "competence, person, ability") ∧
    Iso9000ParserB.hasMultiPat nameMulti.data = true ∧
    Iso9000ParserB.hasMultiPat "品質（quality）".data = false ∧
    Iso9000ParserB.parseTermName "品質（quality）" = ("品質", some "quality") ∧
    Iso9000Parser.parseTermName nameMulti =
      ("品質マネジメント", some "quality management") := by
  refine ⟨by decide, by decide, by decide, by decide, by decide, by decide⟩

/-- C9: within one term's content phase, a second flush of the
definition-state accumulator overwrites the stored definition: when a
bracketed remark block splits plain definition text into two runs, the
emitted definition is only the text accumulated after the remark block
and the earlier flushed text is lost. -/
theorem c9_definition_overwritten (d1 d2 : String)
    (h1 : trimS d1 = d1) (h2 : d1 ≠ "")
    (h3 : Iso9000Parser.isTermId d1 = false) (h4 : Iso9000Parser.isCategoryId d1 = false)
    (h5 : Iso9000Parser.isRemarkLine d1 = false)
    (h6 : hasPrefixStr "注記" d1 = false) (h7 : hasPrefixStr "例" d1 = false)
    (k1 : trimS d2 = d2) (k2 : d2 ≠ "")
    (k3 : Iso9000Parser.isTermId d2 = false) (k4 : Iso9000Parser.isCategoryId d2 = false)
    (k5 : Iso9000Parser.isRemarkLine d2 = false)
    (k6 : hasPrefixStr "注記" d2 = false) (k7 : hasPrefixStr "例" d2 = false)
    (hne : d1 ≠ d2) :
    (Iso9000Parser.parseTermContent [d1, "（ISO 9001:2015, 3.1 参照）", d2] 0).definition = d2 ∧
    (Iso9000Parser.parseTermContent [d1, "（ISO 9001:2015, 3.1 参照）", d2] 0).definition ≠ d1 ∧
    (Iso9000Parser.parseTermContent [d1, "（ISO 9001:2015, 3.1 参照）", d2] 0).remark =
      some "（ISO 9001:2015, 3.1 参照）" := by
  have hdef : (Iso9000Parser.parseTermContent
      [d1, "（ISO 9001:2015, 3.1 参照）", d2] 0).definition = d2 := by
    simp +decide [Iso9000Parser.parseTermContent, Iso9000Parser.contentLoop,
      Iso9000Parser.saveCurrent, List.getD_cons_zero, List.getD_cons_succ,
      empty_append_str, h1, h2, h3, h4, h5, h6, h7, k1, k2, k3, k4, k5, k6, k7]
  have hrem : (Iso9000Parser.parseTermContent
      [d1, "（ISO 9001:2015, 3.1 参照）", d2] 0).remark =
        some "（ISO 9001:2015, 3.1 参照）" := by
    simp +decide [Iso9000Parser.parseTermContent, Iso9000Parser.contentLoop,
      Iso9000Parser.saveCurrent, List.getD_cons_zero, List.getD_cons_succ,
      empty_append_str, h1, h2, h3, h4, h5, h6, h7, k1, k2, k3, k4, k5, k6, k7]
  refine ⟨hdef, ?_, hrem⟩
  rw [hdef]
  intro h
  exact hne h.symm

/-- Witness for C9: two concrete definition runs around the remark. -/
theorem c9_witness :
    (Iso9000Parser.parseTermContent
      ["第一の定義文。", "（ISO 9001:2015, 3.1 参照）", "第二の定義文。"] 0).definition =
        "第二の定義文。" ∧
    (Iso9000Parser.parseTermContent
      ["第一の定義文。", "（ISO 9001:2015, 3.1 参照）", "第二の定義文。"] 0).definition ≠
        "第一の定義文。" ∧
    (Iso9000Parser.parseTermContent
      ["第一の定義文。", "（ISO 9001:2015, 3.1 参照）", "第二の定義文。"] 0).remark =
      some "（ISO 9001:2015, 3.1 参照）" :=
  c9_definition_overwritten "第一の定義文。" "第二の定義文。"
    (by decide) (by decide) (by decide) (by decide) (by decide) (by decide) (by decide)
    (by decide) (by decide) (by decide) (by decide) (by decide) (by decide) (by decide)
    (by decide)

/-- C10: remark recognition accepts only full-width bracket pairs; a
block wrapped end-to-end in ASCII parentheses or ASCII square brackets is
never a remark line, for any inner text, and such a block is appended to
the current accumulator as continuation text instead. -/
theorem c10_ascii_brackets_not_remark :
    (∀ s : String, Iso9000Parser.isRemarkLine ("(" ++ s ++ ")") = false ∧
        Iso9000Parser.isRemarkLine ("[" ++ s ++ "]") = false) ∧
    (Iso9000Parser.parseTermContent
      ["対象を満たす程度。", "(ISO 9001:2015, 3.1 参照)"] 0).remark = none ∧
    (Iso9000Parser.parseTermContent
      ["対象を満たす程度。", "(ISO 9001:2015, 3.1 参照)"] 0).definition =
        "対象を満たす程度。(ISO 9001:2015, 3.1 参照)" ∧
    (Iso9000Parser.parseTermContent
      ["対象を満たす程度。", "(ISO 9001:2015, 3.1 参照)"] 0).notes = [] ∧
    (Iso9000Parser.parseTermContent
      ["対象を満たす程度。", "(ISO 9001:2015, 3.1 参照)"] 0).examples = [] := by
  refine ⟨?_, by decide, by decide, by decide, by decide⟩
  intro s
  cases s with
  | mk data =>
    constructor
    · show Iso9000Parser.isRemarkLine ⟨'(' :: (data ++ [')'])⟩ = false
      simp +decide [Iso9000Parser.isRemarkLine, hasPrefixStr, hasPrefixChars,
        (rfl : "（".data = ['（']), (rfl : "［".data = ['［'])]
    · show Iso9000Parser.isRemarkLine ⟨'[' :: (data ++ [']'])⟩ = false
      simp +decide [Iso9000Parser.isRemarkLine, hasPrefixStr, hasPrefixChars,
        (rfl : "（".data = ['（']), (rfl : "［".data = ['［'])]
